import Mathlib

/-!
Shallow embedding of the replication server (ReplServer.cpp / ReplServer.h)
of the drone-plot replication system.  The plot store (a DronePlotDB, kept
as an ordered container) is modelled as a list of records; record fields
that the embedded code only compares for equality (latitude, longitude) are
modelled as integers, and timestamps as integers.  Fallible operations --
the exceptions thrown by ingestion and marshalling, and the out-of-bounds
vector reads reachable in reconciliation -- are modelled with Option and
explicit outcome types.
-/

/-- Model of one drone plot record (struct DronePlot).  The algorithms under
verification only compare latitude and longitude for equality, so both are
modelled as integers; timestamps are integers as well.  dbflag_new models the
DBFLAG_NEW replicated-pending flag bit. -/
structure DronePlot where
  drone_id : Nat
  node_id : Nat
  timestamp : Int
  latitude : Int
  longitude : Int
  dbflag_new : Bool
  deriving Repr, DecidableEq

/-- Number of bytes in one serialized DronePlot record.
Modelled from the spec: DronePlot::getDataSize is not under src/; the spec
fixes only that records are fixed width.  Field widths chosen here: 4-byte
ids, 8-byte timestamp and coordinates. -/
def recordSize : Nat := 32

/-- Little-endian encoding of a natural number into a fixed number of bytes. -/
def encodeLE : Nat → Nat → List Nat
  | 0, _ => []
  | k + 1, v => v % 256 :: encodeLE k (v / 256)

/-- Little-endian decoding of a byte list into a natural number. -/
def decodeLE : List Nat → Nat
  | [] => 0
  | b :: rest => b % 256 + 256 * decodeLE rest

/-- Twos-complement encoding of an integer in 8 little-endian bytes. -/
def encodeInt64 (v : Int) : List Nat :=
  encodeLE 8 (v.emod (2 ^ 64)).toNat

/-- Twos-complement decoding of 8 little-endian bytes. -/
def decodeInt64 (bs : List Nat) : Int :=
  let v := decodeLE bs
  if v < 2 ^ 63 then (v : Int) else (v : Int) - 2 ^ 64

/-- Serialization of one record (DronePlot::serialize).
Modelled from the spec: a fixed-width binary structure holding subject id,
observing node id, timestamp, latitude and longitude in a stable field
order; the replicated-pending flag is not part of the wire format. -/
def serializePlot (p : DronePlot) : List Nat :=
  encodeLE 4 p.drone_id ++ encodeLE 4 p.node_id ++ encodeInt64 p.timestamp ++
    encodeInt64 p.latitude ++ encodeInt64 p.longitude

/-- Deserialization of one record (DronePlot::deserialize).
Modelled from the spec: the inverse of serialization on the five fields. -/
def deserializePlot (bs : List Nat) : DronePlot :=
  { drone_id := decodeLE (bs.take 4)
    node_id := decodeLE ((bs.drop 4).take 4)
    timestamp := decodeInt64 ((bs.drop 8).take 8)
    latitude := decodeInt64 ((bs.drop 16).take 8)
    longitude := decodeInt64 ((bs.drop 24).take 8)
    dbflag_new := false }

/-- Append a plot to the store with the replicated-pending flag set
(DronePlotDB::addPlot).  Modelled from the spec: the flag is set on
creation, meaning local capture or successful ingestion. -/
def addPlot (store : List DronePlot) (p : DronePlot) : List DronePlot :=
  store ++ [{ p with dbflag_new := true }]

/-- ReplServer::addSingleDronePlot: deserialize one record and add it to the
store. -/
def addSingleDronePlot (store : List DronePlot) (bs : List Nat) : List DronePlot :=
  addPlot store (deserializePlot bs)

/-- Failure modes of batch ingestion: the two runtime_error throws of
ReplServer::addReplDronePlots. -/
inductive BatchError where
  | TruncatedBatch
  | MisalignedBatch
  deriving Repr, DecidableEq

/-- Result of one ingestion call.  fatal e s means an exception was thrown
with the store still equal to s; outOfBounds s means the extraction loop
indexed past the end of the payload buffer (undefined behaviour in the C++
source), with s holding the records added before that point; ok s means the
call completed with final store s. -/
inductive IngestOutcome where
  | fatal (e : BatchError) (store : List DronePlot)
  | outOfBounds (store : List DronePlot)
  | ok (store : List DronePlot)
  deriving Repr, DecidableEq

/-- Extraction loop of ReplServer::addReplDronePlots: pull count records of
recordSize bytes each off the remaining payload, adding each to the store. -/
def ingestLoop : Nat → List Nat → List DronePlot → IngestOutcome
  | 0, _, store => .ok store
  | count + 1, rem, store =>
    if recordSize ≤ rem.length then
      ingestLoop count (rem.drop recordSize) (addSingleDronePlot store (rem.take recordSize))
    else
      .outOfBounds store

/-- ReplServer::addReplDronePlots: validate the payload length, read the
4-byte count prefix (native little-endian), then extract exactly count
records.  The count is never compared against the actual payload length. -/
def addReplDronePlots (data : List Nat) (store : List DronePlot) : IngestOutcome :=
  if data.length < 4 then .fatal .TruncatedBatch store
  else if (data.length - 4) % recordSize ≠ 0 then .fatal .MisalignedBatch store
  else ingestLoop (decodeLE (data.take 4)) (data.drop 4) store

/-- Scan loop of ReplServer::queueNewPlots: walk the store front to back; a
record with the flag set is serialized onto the accumulated marshall data
and its flag cleared.  After each record the accumulated size is checked to
be a multiple of the record size; none models the runtime_error throw. -/
def queueNewPlotsLoop : List Nat → Nat → List DronePlot →
    Option (List Nat × Nat × List DronePlot)
  | acc, count, [] => some (acc, count, [])
  | acc, count, p :: rest =>
    let step :=
      if p.dbflag_new then (acc ++ serializePlot p, count + 1, { p with dbflag_new := false })
      else (acc, count, p)
    if step.1.length % recordSize ≠ 0 then none
    else
      match queueNewPlotsLoop step.1 step.2.1 rest with
      | none => none
      | some (d, c, rest') => some (d, c, step.2.2 :: rest')

/-- ReplServer::queueNewPlots: gather flagged records, clearing their flags;
when at least one was found, prepend the 4-byte count and hand the payload
to the queue for broadcast to all peers.  The result carries the returned
count, the updated store, and the payload actually sent (none: no send). -/
def queueNewPlots (store : List DronePlot) :
    Option (Nat × List DronePlot × Option (List Nat)) :=
  match queueNewPlotsLoop [] 0 store with
  | none => none
  | some (data, count, store') =>
    if count = 0 then some (0, store', none)
    else some (count, store', some (encodeLE 4 count ++ data))

/-- Replication interval in simulated seconds (the secs_between_repl
constant). -/
def secs_between_repl : Int := 20

/-- State carried across iterations of the ReplServer::replicate loop. -/
structure LoopState where
  store : List DronePlot
  last_repl : Int
  deriving Repr, DecidableEq

/-- Broadcast decision of one iteration of ReplServer::replicate: when the
adjusted time minus the last replication time strictly exceeds the
interval, run queueNewPlots and reset last_repl to the adjusted time; the
optional payload is what was handed to the queue for broadcast.  none
models the marshalling runtime_error escaping the loop. -/
def replicate_tick (now : Int) (s : LoopState) :
    Option (LoopState × Option (List Nat)) :=
  if secs_between_repl < now - s.last_repl then
    match queueNewPlots s.store with
    | none => none
    | some r => some ({ store := r.2.1, last_repl := now }, r.2.2)
  else some (s, none)

/-- Inner scan of ReplServer::offset_aux: starting strictly after the record
p of the node being offset, find the first record with the same latitude
and longitude whose node id is the reference id; return the timestamp
difference and the remaining suffix with that record erased. -/
def offsetAuxInner (p : DronePlot) (largest_id : Nat) :
    List DronePlot → Option (Int × List DronePlot)
  | [] => none
  | q :: rest =>
    if q.latitude = p.latitude ∧ q.longitude = p.longitude ∧ q.node_id = largest_id then
      some (q.timestamp - p.timestamp, rest)
    else
      match offsetAuxInner p largest_id rest with
      | none => none
      | some r => some (r.1, q :: r.2)

/-- ReplServer::offset_aux: scan for records of input_id; for each, run the
inner scan for a spatial duplicate stamped by the reference node.  On the
first success return that offset with the duplicate erased from the store;
if no inner scan ever succeeds return offset 0 with the store unchanged. -/
def offset_aux (input_id largest_id : Nat) : List DronePlot → Int × List DronePlot
  | [] => (0, [])
  | p :: rest =>
    if p.node_id = input_id then
      match offsetAuxInner p largest_id rest with
      | some r => (r.1, p :: r.2)
      | none =>
        let r := offset_aux input_id largest_id rest
        (r.1, p :: r.2)
    else
      let r := offset_aux input_id largest_id rest
      (r.1, p :: r.2)

/-- ReplServer::get_node_count: walk the store and append each node id not
yet present in the tracker. -/
def get_node_count : List DronePlot → List Nat → List Nat
  | [], tracker => tracker
  | p :: rest, tracker =>
    if p.node_id ∈ tracker then get_node_count rest tracker
    else get_node_count rest (tracker ++ [p.node_id])

/-- Loop body of ReplServer::generate_offsets: walk the tracker, stopping at
the first id equal to the reference id; each earlier id contributes one
offset computed (with one possible erasure performed) by offset_aux. -/
def generateOffsetsLoop (largest_id : Nat) :
    List Nat → List DronePlot → List Int × List DronePlot
  | [], store => ([], store)
  | n :: rest, store =>
    if n = largest_id then ([], store)
    else
      let r := offset_aux n largest_id store
      let r2 := generateOffsetsLoop largest_id rest r.2
      (r.1 :: r2.1, r2.2)

/-- ReplServer::generate_offsets: read the reference id from the last
tracker slot -- none models the out-of-bounds vector read
tracker[tracker.size()-1] on an empty tracker -- then run the loop. -/
def generate_offsets (tracker : List Nat) (store : List DronePlot) :
    Option (List Int × List DronePlot) :=
  match tracker.getLast? with
  | none => none
  | some largest_id => some (generateOffsetsLoop largest_id tracker store)

/-- Index search of ReplServer::correct_timestamps: count tracker entries
before the first one equal to n (the full tracker length when n is
absent). -/
def trackerIndex : List Nat → Nat → Nat
  | [], _ => 0
  | m :: rest, n => if n = m then 0 else trackerIndex rest n + 1

/-- Correction of a single record inside ReplServer::correct_timestamps: a
record of the reference node is left alone; any other record gets the
offset at its tracker index added to its timestamp.  none models the
out-of-bounds vector read offsets[i]. -/
def correctOne (offsets : List Int) (tracker : List Nat) (largest_id : Nat)
    (p : DronePlot) : Option DronePlot :=
  if p.node_id = largest_id then some p
  else
    match offsets[trackerIndex tracker p.node_id]? with
    | none => none
    | some off => some { p with timestamp := p.timestamp + off }

/-- ReplServer::correct_timestamps: read the reference id from the last
tracker slot (none models the out-of-bounds read on an empty tracker), then
rewrite every record in place. -/
def correct_timestamps (offsets : List Int) (tracker : List Nat)
    (store : List DronePlot) : Option (List DronePlot) :=
  match tracker.getLast? with
  | none => none
  | some largest_id => store.mapM (correctOne offsets tracker largest_id)

/-- Stable ascending sort of the store by timestamp
(DronePlotDB::sortByTime).  Modelled from the spec: the store supports an
in-place stable sort by timestamp; DronePlotDB is not under src/. -/
def sortByTime (store : List DronePlot) : List DronePlot :=
  List.insertionSort (fun p q => p.timestamp ≤ q.timestamp) store

/-- Ascending sort of the tracker (the std::sort call in
eventual_consistency); the tracker holds distinct ids, so any comparison
sort yields this list. -/
def sortTracker (tracker : List Nat) : List Nat :=
  List.insertionSort (fun a b => a ≤ b) tracker

/-- ReplServer::eventual_consistency: sort the store by time, collect and
sort the node ids, generate the offsets (erasing one found duplicate per
non-reference node), and correct the timestamps. -/
def eventual_consistency (store : List DronePlot) : Option (List DronePlot) :=
  let sorted := sortByTime store
  let tracker := sortTracker (get_node_count sorted [])
  match generate_offsets tracker sorted with
  | none => none
  | some r => correct_timestamps r.1 tracker r.2

/-- Clearing of the replicated-pending flag as performed by the scan loop. -/
def clearNew (p : DronePlot) : DronePlot :=
  if p.dbflag_new then { p with dbflag_new := false } else p

/-- Number of records with the replicated-pending flag set. -/
def flaggedCount : List DronePlot → Nat
  | [] => 0
  | p :: rest => (if p.dbflag_new then 1 else 0) + flaggedCount rest

/-- Marshall data accumulated by the scan loop: the serializations of the
flagged records in store order. -/
def marshallFlagged : List DronePlot → List Nat
  | [] => []
  | p :: rest => (if p.dbflag_new then serializePlot p else []) ++ marshallFlagged rest

/-- Condition of claim C3 on a store: no record of the reference node R with
the same latitude and longitude occurs after any record of node n. -/
def no_ref_match (n R : Nat) : List DronePlot → Prop
  | [] => True
  | p :: rest =>
    (p.node_id = n →
      ∀ q ∈ rest, ¬(q.latitude = p.latitude ∧ q.longitude = p.longitude ∧ q.node_id = R)) ∧
    no_ref_match n R rest

instance noRefMatchDecidable (n R : Nat) : (l : List DronePlot) → Decidable (no_ref_match n R l)
  | [] => inferInstanceAs (Decidable True)
  | p :: rest =>
    haveI : Decidable (no_ref_match n R rest) := noRefMatchDecidable n R rest
    inferInstanceAs (Decidable (_ ∧ _))

theorem encodeLE_length (k v : Nat) : (encodeLE k v).length = k := by
  induction k generalizing v with
  | zero => rfl
  | succ k ih => simp [encodeLE, ih]

theorem serializePlot_length (p : DronePlot) : (serializePlot p).length = recordSize := by
  simp [serializePlot, encodeInt64, encodeLE_length, recordSize]

theorem queueNewPlotsLoop_eq (store : List DronePlot) :
    ∀ acc count, acc.length % recordSize = 0 →
      queueNewPlotsLoop acc count store =
        some (acc ++ marshallFlagged store, count + flaggedCount store, store.map clearNew) := by
  induction store with
  | nil =>
    intro acc count _
    simp [queueNewPlotsLoop, marshallFlagged, flaggedCount]
  | cons p rest ih =>
    intro acc count h
    by_cases hp : p.dbflag_new = true
    · have hlen : (acc ++ serializePlot p).length % recordSize = 0 := by
        rw [List.length_append, serializePlot_length, Nat.add_mod_right]
        exact h
      simp only [queueNewPlotsLoop, if_pos hp]
      rw [if_neg (not_not_intro hlen), ih _ _ hlen]
      simp [marshallFlagged, flaggedCount, clearNew, hp, Nat.add_assoc]
    · simp only [queueNewPlotsLoop, if_neg hp]
      rw [if_neg (not_not_intro h), ih _ _ h]
      simp [marshallFlagged, flaggedCount, clearNew, hp]

theorem queueNewPlots_eq (store : List DronePlot) :
    queueNewPlots store =
      some (flaggedCount store, store.map clearNew,
        if flaggedCount store = 0 then none
        else some (encodeLE 4 (flaggedCount store) ++ marshallFlagged store)) := by
  rw [queueNewPlots, queueNewPlotsLoop_eq store [] 0 (by decide)]
  by_cases h : flaggedCount store = 0
  · simp [h]
  · simp [h]

theorem map_clearNew_of_no_flag (store : List DronePlot) (h : flaggedCount store = 0) :
    store.map clearNew = store := by
  induction store with
  | nil => rfl
  | cons p rest ih =>
    rw [flaggedCount] at h
    by_cases hp : p.dbflag_new = true
    · rw [if_pos hp] at h
      omega
    · rw [if_neg hp] at h
      simp only [Nat.zero_add] at h
      simp [clearNew, hp, ih h]


theorem ingestLoop_oob (count : Nat) :
    ∀ (rem : List Nat) (store : List DronePlot),
      rem.length < count * recordSize →
      ∃ st, ingestLoop count rem store = .outOfBounds st := by
  induction count with
  | zero =>
    intro rem store h
    omega
  | succ k ih =>
    intro rem store h
    rw [Nat.succ_mul] at h
    by_cases hr : recordSize ≤ rem.length
    · have hlt : (rem.drop recordSize).length < k * recordSize := by
        rw [List.length_drop]
        omega
      obtain ⟨st, hst⟩ := ih (rem.drop recordSize)
        (addSingleDronePlot store (rem.take recordSize)) hlt
      refine ⟨st, ?_⟩
      simp only [ingestLoop]
      rw [if_pos hr]
      exact hst
    · refine ⟨store, ?_⟩
      simp only [ingestLoop]
      rw [if_neg hr]

theorem ingestLoop_ok (count : Nat) :
    ∀ (rem : List Nat) (store : List DronePlot),
      count * recordSize ≤ rem.length →
      ∃ added, ingestLoop count rem store = .ok (store ++ added) ∧ added.length = count := by
  induction count with
  | zero =>
    intro rem store _
    exact ⟨[], by simp [ingestLoop], rfl⟩
  | succ k ih =>
    intro rem store h
    rw [Nat.succ_mul] at h
    have hr : recordSize ≤ rem.length := by omega
    obtain ⟨added, hok, hlen⟩ := ih (rem.drop recordSize)
      (addSingleDronePlot store (rem.take recordSize))
      (by rw [List.length_drop]; omega)
    refine ⟨{ deserializePlot (rem.take recordSize) with dbflag_new := true } :: added, ?_, by
      simp [hlen]⟩
    simp only [ingestLoop]
    rw [if_pos hr, hok]
    simp [addSingleDronePlot, addPlot]

/-- C1: for a store holding exactly node 1 at timestamp 100, latitude 10,
longitude 20 and node 2 (the highest id, hence the reference node) at
timestamp 150 with the same coordinates, reconciliation leaves exactly one
record, that of node 1, with its timestamp rewritten to 150. -/
theorem reconciliation_two_record_scenario (d1 d2 : Nat) (f1 f2 : Bool) :
    eventual_consistency
      [⟨d1, 1, 100, 10, 20, f1⟩, ⟨d2, 2, 150, 10, 20, f2⟩] =
      some [⟨d1, 1, 150, 10, 20, f1⟩] := by
  simp [eventual_consistency, sortByTime, sortTracker, List.insertionSort,
    List.orderedInsert, get_node_count, generate_offsets, generateOffsetsLoop,
    offset_aux, offsetAuxInner, correct_timestamps, correctOne, trackerIndex,
    List.mapM, List.mapM.loop]

/-- C5: batch ingestion fails with TruncatedBatch for every payload shorter
than 4 bytes and with MisalignedBatch for every payload whose length minus
4 is not a multiple of the record size; in both cases the store is
untouched. -/
theorem addReplDronePlots_length_validation (data : List Nat) (store : List DronePlot) :
    (data.length < 4 →
      addReplDronePlots data store = .fatal .TruncatedBatch store) ∧
    (4 ≤ data.length → (data.length - 4) % recordSize ≠ 0 →
      addReplDronePlots data store = .fatal .MisalignedBatch store) := by
  constructor
  · intro h
    rw [addReplDronePlots, if_pos h]
  · intro h4 hmod
    rw [addReplDronePlots, if_neg (by omega), if_pos hmod]

theorem addReplDronePlots_length_validation_witness :
    addReplDronePlots [1, 2, 3] [] = .fatal .TruncatedBatch [] ∧
    addReplDronePlots [0, 0, 0, 0, 9] [] = .fatal .MisalignedBatch [] :=
  ⟨(addReplDronePlots_length_validation [1, 2, 3] []).1 (by decide),
   (addReplDronePlots_length_validation [0, 0, 0, 0, 9] []).2 (by decide) (by decide)⟩

/-- C9: a payload passing both length checks is ingested by trusting the
4-byte count prefix: when the count times the record size fits in the
payload body, exactly count records are appended, and when it exceeds the
body length, extraction indexes past the end of the payload buffer. -/
theorem addReplDronePlots_count_trusted (data : List Nat) (store : List DronePlot)
    (h4 : 4 ≤ data.length) (hmod : (data.length - 4) % recordSize = 0) :
    (data.length - 4 < decodeLE (data.take 4) * recordSize →
      ∃ st, addReplDronePlots data store = .outOfBounds st) ∧
    (decodeLE (data.take 4) * recordSize ≤ data.length - 4 →
      ∃ added, addReplDronePlots data store = .ok (store ++ added) ∧
        added.length = decodeLE (data.take 4)) := by
  have hrun : addReplDronePlots data store =
      ingestLoop (decodeLE (data.take 4)) (data.drop 4) store := by
    rw [addReplDronePlots, if_neg (by omega), if_neg (not_not_intro hmod)]
  have hdl : (data.drop 4).length = data.length - 4 := by
    rw [List.length_drop]
  constructor
  · intro hc
    rw [hrun]
    exact ingestLoop_oob _ _ _ (by rw [hdl]; exact hc)
  · intro hc
    rw [hrun]
    exact ingestLoop_ok _ _ _ (by rw [hdl]; exact hc)

theorem addReplDronePlots_count_trusted_witness :
    (∃ st, addReplDronePlots ([5, 0, 0, 0] ++ List.replicate 32 0) [] = .outOfBounds st) ∧
    (∃ added, addReplDronePlots ([1, 0, 0, 0] ++ List.replicate 32 0) [] =
        .ok ([] ++ added) ∧
      added.length = decodeLE (([1, 0, 0, 0] ++ List.replicate 32 0).take 4)) :=
  ⟨(addReplDronePlots_count_trusted ([5, 0, 0, 0] ++ List.replicate 32 0) []
      (by decide) (by decide)).1 (by decide),
   (addReplDronePlots_count_trusted ([1, 0, 0, 0] ++ List.replicate 32 0) []
      (by decide) (by decide)).2 (by decide)⟩

/-- C6: one broadcast scan maps the store pointwise: a record whose
replicated-pending flag was set comes out with only the flag cleared, and a
record whose flag was clear comes out unchanged in every field. -/
theorem queueNewPlots_flag_frame (store : List DronePlot) :
    ∃ cnt payload,
      queueNewPlots store =
        some (cnt,
          store.map (fun p => if p.dbflag_new then { p with dbflag_new := false } else p),
          payload) :=
  ⟨flaggedCount store,
   if flaggedCount store = 0 then none
   else some (encodeLE 4 (flaggedCount store) ++ marshallFlagged store),
   by rw [queueNewPlots_eq]; rfl⟩

/-- C8: one iteration of the replication loop broadcasts (scanning the
store, clearing the flags and resetting last_repl) exactly when the
adjusted time minus last_repl strictly exceeds the 20-second interval, and
a scan finding zero flagged records returns 0 and issues no send. -/
theorem replicate_tick_interval (now : Int) (s : LoopState) :
    (secs_between_repl < now - s.last_repl →
      replicate_tick now s =
        some ({ store := s.store.map clearNew, last_repl := now },
          if flaggedCount s.store = 0 then none
          else some (encodeLE 4 (flaggedCount s.store) ++ marshallFlagged s.store))) ∧
    (¬ secs_between_repl < now - s.last_repl →
      replicate_tick now s = some (s, none)) ∧
    (flaggedCount s.store = 0 →
      queueNewPlots s.store = some (0, s.store, none)) := by
  refine ⟨?_, ?_, ?_⟩
  · intro h
    rw [replicate_tick, if_pos h, queueNewPlots_eq]
  · intro h
    rw [replicate_tick, if_neg h]
  · intro h
    rw [queueNewPlots_eq, map_clearNew_of_no_flag s.store h, h]
    simp

theorem replicate_tick_interval_witness :
    replicate_tick 30 ⟨[], 0⟩ = some (⟨[], 30⟩, none) ∧
    replicate_tick 10 ⟨[], 0⟩ = some (⟨[], 0⟩, none) ∧
    queueNewPlots [] = some (0, [], none) := by
  obtain ⟨h1, -, h3⟩ := replicate_tick_interval 30 ⟨[], 0⟩
  obtain ⟨-, g2, -⟩ := replicate_tick_interval 10 ⟨[], 0⟩
  refine ⟨?_, g2 (by decide), h3 (by decide)⟩
  rw [h1 (by decide)]
  decide

theorem offsetAuxInner_skip (p r : DronePlot) (R : Nat)
    (hr : r.latitude = p.latitude ∧ r.longitude = p.longitude ∧ r.node_id = R) :
    ∀ B C : List DronePlot,
      (∀ q ∈ B, ¬(q.latitude = p.latitude ∧ q.longitude = p.longitude ∧ q.node_id = R)) →
      offsetAuxInner p R (B ++ r :: C) = some (r.timestamp - p.timestamp, B ++ C) := by
  intro B
  induction B with
  | nil =>
    intro C _
    simp only [List.nil_append, offsetAuxInner, if_pos hr]
  | cons q B ih =>
    intro C hB
    simp only [List.cons_append, offsetAuxInner, if_neg (hB q (List.mem_cons_self q B)),
      List.append_eq]
    rw [ih C (fun x hx => hB x (List.mem_cons_of_mem q hx))]

theorem offset_aux_skip (n R : Nat) :
    ∀ (A rest : List DronePlot), (∀ q ∈ A, q.node_id ≠ n) →
      offset_aux n R (A ++ rest) =
        ((offset_aux n R rest).1, A ++ (offset_aux n R rest).2) := by
  intro A
  induction A with
  | nil =>
    intro rest _
    simp
  | cons q A ih =>
    intro rest hA
    simp only [List.cons_append, offset_aux, if_neg (hA q (List.mem_cons_self q A)),
      List.append_eq]
    rw [ih rest (fun x hx => hA x (List.mem_cons_of_mem q hx))]

/-- C2: in a store holding exactly one reference-node record r and exactly
one record c of another node n with the same latitude and longitude, with c
occurring before r, offset_aux on n returns exactly the timestamp of r minus
the timestamp of c, removes r from the store, and keeps every other record. -/
theorem offset_aux_single_duplicate
    (A B C : List DronePlot) (c r : DronePlot) (n R : Nat)
    (hc : c.node_id = n) (hrn : r.node_id = R) (hnR : n ≠ R)
    (hlat : r.latitude = c.latitude) (hlon : r.longitude = c.longitude)
    (hA : ∀ q ∈ A, q.node_id ≠ n ∧ q.node_id ≠ R)
    (hB : ∀ q ∈ B, q.node_id ≠ n ∧ q.node_id ≠ R)
    (hC : ∀ q ∈ C, q.node_id ≠ n ∧ q.node_id ≠ R) :
    offset_aux n R (A ++ c :: (B ++ r :: C)) =
      (r.timestamp - c.timestamp, A ++ c :: (B ++ C)) := by
  rw [offset_aux_skip n R A _ (fun q hq => (hA q hq).1)]
  have hinner : offsetAuxInner c R (B ++ r :: C) =
      some (r.timestamp - c.timestamp, B ++ C) :=
    offsetAuxInner_skip c r R ⟨hlat, hlon, hrn⟩ B C
      (fun q hq hmatch => (hB q hq).2 hmatch.2.2)
  simp only [offset_aux, if_pos hc, hinner]

theorem offset_aux_single_duplicate_witness :
    offset_aux 1 2
      [⟨9, 3, 5, 0, 0, false⟩, ⟨7, 1, 100, 10, 20, false⟩, ⟨8, 3, 120, 10, 20, false⟩,
        ⟨6, 2, 150, 10, 20, false⟩, ⟨5, 3, 160, 1, 2, false⟩] =
      (50, [⟨9, 3, 5, 0, 0, false⟩, ⟨7, 1, 100, 10, 20, false⟩,
        ⟨8, 3, 120, 10, 20, false⟩, ⟨5, 3, 160, 1, 2, false⟩]) := by
  simpa using offset_aux_single_duplicate
    [⟨9, 3, 5, 0, 0, false⟩] [⟨8, 3, 120, 10, 20, false⟩] [⟨5, 3, 160, 1, 2, false⟩]
    ⟨7, 1, 100, 10, 20, false⟩ ⟨6, 2, 150, 10, 20, false⟩ 1 2
    rfl rfl (by decide) rfl rfl (by decide) (by decide) (by decide)

theorem offsetAuxInner_none (p : DronePlot) (R : Nat) :
    ∀ L : List DronePlot,
      (∀ q ∈ L, ¬(q.latitude = p.latitude ∧ q.longitude = p.longitude ∧ q.node_id = R)) →
      offsetAuxInner p R L = none := by
  intro L
  induction L with
  | nil =>
    intro _
    rfl
  | cons q L ih =>
    intro h
    simp only [offsetAuxInner, if_neg (h q (List.mem_cons_self q L))]
    rw [ih (fun x hx => h x (List.mem_cons_of_mem q hx))]

/-- C3: for every store and node n such that no reference-node record with
identical latitude and longitude occurs after any record of n,
offset_aux returns 0 and leaves the store entirely unchanged. -/
theorem offset_aux_no_match (S : List DronePlot) (n R : Nat) (hnR : n ≠ R)
    (h : no_ref_match n R S) : offset_aux n R S = (0, S) := by
  induction S with
  | nil => rfl
  | cons p rest ih =>
    simp only [no_ref_match] at h
    obtain ⟨h1, h2⟩ := h
    by_cases hp : p.node_id = n
    · simp only [offset_aux, if_pos hp, offsetAuxInner_none p R rest (h1 hp)]
      rw [ih h2]
    · simp only [offset_aux, if_neg hp]
      rw [ih h2]

theorem offset_aux_no_match_witness :
    offset_aux 1 2 [⟨7, 1, 100, 10, 20, false⟩, ⟨6, 2, 150, 11, 20, false⟩] =
      (0, [⟨7, 1, 100, 10, 20, false⟩, ⟨6, 2, 150, 11, 20, false⟩]) :=
  offset_aux_no_match _ 1 2 (by decide) (by decide)

theorem getLast?_mem_of_eq_some : ∀ (l : List Nat) (a : Nat), l.getLast? = some a → a ∈ l
  | [], _, h => by simp at h
  | [x], a, h => by
    simp at h
    simp [h]
  | x :: y :: rest, a, h => by
    rw [List.getLast?_cons_cons] at h
    exact List.mem_cons_of_mem x (getLast?_mem_of_eq_some (y :: rest) a h)

theorem trackerIndex_lt_of_ne_last :
    ∀ (t : List Nat) (R n : Nat), t.getLast? = some R → t.Nodup → n ∈ t → n ≠ R →
      trackerIndex t n + 1 < t.length
  | [], R, n, _, _, hmem, _ => absurd hmem (List.not_mem_nil n)
  | [m], R, n, hlast, _, hmem, hne => by
    simp at hlast
    simp at hmem
    exact absurd (hmem.trans hlast) hne
  | m :: m2 :: rest, R, n, hlast, hnd, hmem, hne => by
    rw [List.getLast?_cons_cons] at hlast
    have heq : trackerIndex (m :: m2 :: rest) n =
        if n = m then 0 else trackerIndex (m2 :: rest) n + 1 := rfl
    by_cases hm : n = m
    · rw [heq, if_pos hm]
      simp only [List.length_cons]
      omega
    · have hmem2 : n ∈ m2 :: rest := by
        rcases List.mem_cons.mp hmem with h | h
        · exact absurd h hm
        · exact h
      have hnd2 : (m2 :: rest).Nodup := (List.nodup_cons.mp hnd).2
      have ih := trackerIndex_lt_of_ne_last (m2 :: rest) R n hlast hnd2 hmem2 hne
      rw [heq, if_neg hm]
      simp only [List.length_cons] at ih ⊢
      omega

theorem generateOffsetsLoop_length :
    ∀ (t : List Nat) (R : Nat) (S : List DronePlot),
      t.getLast? = some R → t.Nodup →
      (generateOffsetsLoop R t S).1.length + 1 = t.length
  | [], R, S, hlast, _ => by simp at hlast
  | [m], R, S, hlast, _ => by
    simp at hlast
    simp [generateOffsetsLoop, hlast]
  | m :: m2 :: rest, R, S, hlast, hnd => by
    rw [List.getLast?_cons_cons] at hlast
    have hRmem : R ∈ m2 :: rest := getLast?_mem_of_eq_some (m2 :: rest) R hlast
    have hm : m ≠ R := by
      intro h
      exact (List.nodup_cons.mp hnd).1 (h ▸ hRmem)
    have ih := generateOffsetsLoop_length (m2 :: rest) R
      (offset_aux m R S).2 hlast (List.nodup_cons.mp hnd).2
    have heq : generateOffsetsLoop R (m :: m2 :: rest) S =
        if m = R then ([], S)
        else ((offset_aux m R S).1 ::
            (generateOffsetsLoop R (m2 :: rest) (offset_aux m R S).2).1,
          (generateOffsetsLoop R (m2 :: rest) (offset_aux m R S).2).2) := rfl
    rw [heq, if_neg hm]
    simp only [List.length_cons] at ih ⊢
    omega

theorem mapM_eq_map_of_forall {α β : Type} (g : α → Option β) (f : α → β) :
    ∀ l : List α, (∀ x ∈ l, g x = some (f x)) → l.mapM g = some (l.map f) := by
  intro l
  induction l with
  | nil =>
    intro _
    rfl
  | cons x l ih =>
    intro h
    rw [List.mapM_cons, h x (List.mem_cons_self x l),
      ih (fun y hy => h y (List.mem_cons_of_mem x hy))]
    rfl

theorem correct_timestamps_eq (offsets : List Int) (tracker : List Nat) (R : Nat)
    (S : List DronePlot) (hR : tracker.getLast? = some R)
    (hidx : ∀ p ∈ S, p.node_id ≠ R → trackerIndex tracker p.node_id < offsets.length) :
    correct_timestamps offsets tracker S =
      some (S.map (fun p => if p.node_id = R then p
        else { p with
          timestamp := p.timestamp + offsets.getD (trackerIndex tracker p.node_id) 0 })) := by
  simp only [correct_timestamps, hR]
  apply mapM_eq_map_of_forall
  intro p hp
  rw [correctOne]
  by_cases h : p.node_id = R
  · rw [if_pos h, if_pos h]
  · have hlt := hidx p hp h
    rw [if_neg h, if_neg h, List.getElem?_eq_getElem hlt,
      List.getD_eq_getElem offsets 0 hlt]

/-- C7: with the tracker holding distinct node ids ending in the reference
id and the offset table one entry shorter than the tracker, the correction
pass adds to every non-reference record the offset at its tracker index and
leaves every reference-node record untouched; the loop of generate_offsets
produces exactly one offset per non-reference tracker entry. -/
theorem correct_timestamps_offset_application
    (tracker : List Nat) (R : Nat) (offsets : List Int)
    (S store : List DronePlot)
    (hR : tracker.getLast? = some R) (hnd : tracker.Nodup)
    (hlen : offsets.length + 1 = tracker.length)
    (hmem : ∀ p ∈ S, p.node_id ∈ tracker) :
    correct_timestamps offsets tracker S =
      some (S.map (fun p => if p.node_id = R then p
        else { p with
          timestamp := p.timestamp + offsets.getD (trackerIndex tracker p.node_id) 0 })) ∧
    (generateOffsetsLoop R tracker store).1.length + 1 = tracker.length ∧
    generate_offsets tracker store = some (generateOffsetsLoop R tracker store) := by
  refine ⟨?_, generateOffsetsLoop_length tracker R store hR hnd, by
    simp only [generate_offsets, hR]⟩
  apply correct_timestamps_eq offsets tracker R S hR
  intro p hp hne
  have := trackerIndex_lt_of_ne_last tracker R p.node_id hR hnd (hmem p hp) hne
  omega

theorem correct_timestamps_offset_application_witness :
    correct_timestamps [5] [1, 2] [⟨0, 1, 10, 3, 4, false⟩] =
      some [⟨0, 1, 15, 3, 4, false⟩] ∧
    (generateOffsetsLoop 2 [1, 2] []).1.length + 1 = ([1, 2] : List Nat).length ∧
    generate_offsets ([1, 2] : List Nat) [] = some (generateOffsetsLoop 2 [1, 2] []) := by
  obtain ⟨h1, h2, h3⟩ := correct_timestamps_offset_application [1, 2] 2 [5]
    [⟨0, 1, 10, 3, 4, false⟩] [] (by decide) (by decide) (by decide) (by decide)
  refine ⟨?_, h2, h3⟩
  rw [h1]
  decide

theorem offsetAuxInner_sublist (p : DronePlot) (R : Nat) :
    ∀ (L : List DronePlot) (r : Int × List DronePlot),
      offsetAuxInner p R L = some r → r.2.Sublist L := by
  intro L
  induction L with
  | nil =>
    intro r h
    exact absurd h (by simp [offsetAuxInner])
  | cons q L ih =>
    intro r h
    by_cases hq : q.latitude = p.latitude ∧ q.longitude = p.longitude ∧ q.node_id = R
    · rw [offsetAuxInner, if_pos hq] at h
      cases h
      exact List.sublist_cons_self q L
    · rw [offsetAuxInner, if_neg hq] at h
      cases hrec : offsetAuxInner p R L with
      | none =>
        rw [hrec] at h
        cases h
      | some r' =>
        rw [hrec] at h
        cases h
        exact (ih r' hrec).cons₂ q

theorem offset_aux_sublist (n R : Nat) :
    ∀ S : List DronePlot, (offset_aux n R S).2.Sublist S := by
  intro S
  induction S with
  | nil => exact List.Sublist.refl []
  | cons p rest ih =>
    by_cases hp : p.node_id = n
    · cases hrec : offsetAuxInner p R rest with
      | none =>
        simp only [offset_aux, if_pos hp, hrec]
        exact ih.cons₂ p
      | some r =>
        simp only [offset_aux, if_pos hp, hrec]
        exact (offsetAuxInner_sublist p R rest r hrec).cons₂ p
    · simp only [offset_aux, if_neg hp]
      exact ih.cons₂ p

theorem generateOffsetsLoop_sublist (R : Nat) :
    ∀ (t : List Nat) (S : List DronePlot), (generateOffsetsLoop R t S).2.Sublist S := by
  intro t
  induction t with
  | nil =>
    intro S
    exact List.Sublist.refl S
  | cons n rest ih =>
    intro S
    by_cases hn : n = R
    · simp only [generateOffsetsLoop, if_pos hn]
      exact List.Sublist.refl S
    · simp only [generateOffsetsLoop, if_neg hn]
      exact (ih (offset_aux n R S).2).trans (offset_aux_sublist n R S)

theorem get_node_count_mono :
    ∀ (S : List DronePlot) (init : List Nat) (x : Nat),
      x ∈ init → x ∈ get_node_count S init := by
  intro S
  induction S with
  | nil =>
    intro init x hx
    exact hx
  | cons p rest ih =>
    intro init x hx
    by_cases hp : p.node_id ∈ init
    · simp only [get_node_count, if_pos hp]
      exact ih init x hx
    · simp only [get_node_count, if_neg hp]
      exact ih (init ++ [p.node_id]) x (List.mem_append_left _ hx)

theorem mem_get_node_count :
    ∀ (S : List DronePlot) (init : List Nat) (p : DronePlot),
      p ∈ S → p.node_id ∈ get_node_count S init := by
  intro S
  induction S with
  | nil =>
    intro init p hp
    exact absurd hp (List.not_mem_nil p)
  | cons q rest ih =>
    intro init p hp
    rcases List.mem_cons.mp hp with rfl | hp
    · by_cases hq : p.node_id ∈ init
      · simp only [get_node_count, if_pos hq]
        exact get_node_count_mono rest init p.node_id hq
      · simp only [get_node_count, if_neg hq]
        exact get_node_count_mono rest (init ++ [p.node_id]) p.node_id
          (List.mem_append_right init (List.mem_singleton.mpr rfl))
    · by_cases hq : q.node_id ∈ init
      · simp only [get_node_count, if_pos hq]
        exact ih init p hp
      · simp only [get_node_count, if_neg hq]
        exact ih (init ++ [q.node_id]) p hp

theorem get_node_count_nodup :
    ∀ (S : List DronePlot) (init : List Nat), init.Nodup → (get_node_count S init).Nodup := by
  intro S
  induction S with
  | nil =>
    intro init h
    exact h
  | cons p rest ih =>
    intro init h
    by_cases hp : p.node_id ∈ init
    · simp only [get_node_count, if_pos hp]
      exact ih init h
    · simp only [get_node_count, if_neg hp]
      refine ih (init ++ [p.node_id]) ?_
      simp [List.nodup_append, h, hp]

/-- C10: reconciliation is well defined only for a non-empty store: on the
empty store the node tracker comes out empty and both offset generation and
timestamp correction perform the out-of-bounds vector read
tracker[tracker.size()-1] (modelled as none), while every non-empty store
reconciles to some result. -/
theorem reconciliation_empty_store_oob :
    (get_node_count [] [] = [] ∧
      eventual_consistency [] = none ∧
      generate_offsets [] [] = none ∧
      ∀ offsets : List Int, correct_timestamps offsets [] [] = none) ∧
    ∀ S : List DronePlot, S ≠ [] → ∃ out, eventual_consistency S = some out := by
  refine ⟨⟨rfl, rfl, rfl, fun _ => rfl⟩, ?_⟩
  intro S hS
  have hTne : sortByTime S ≠ [] := by
    intro hnil
    apply hS
    have hlen := congrArg List.length hnil
    rw [sortByTime, List.length_insertionSort] at hlen
    exact List.eq_nil_of_length_eq_zero hlen
  obtain ⟨q, T', hT⟩ := List.exists_cons_of_ne_nil hTne
  have htr0 : q.node_id ∈ get_node_count (sortByTime S) [] := by
    rw [hT]
    exact mem_get_node_count _ [] q (List.mem_cons_self q T')
  have htrmem : q.node_id ∈ sortTracker (get_node_count (sortByTime S) []) := by
    rw [sortTracker]
    exact (List.mem_insertionSort _).mpr htr0
  have htrne : sortTracker (get_node_count (sortByTime S) []) ≠ [] :=
    List.ne_nil_of_mem htrmem
  obtain ⟨R, hR⟩ : ∃ R, (sortTracker (get_node_count (sortByTime S) [])).getLast? = some R :=
    ⟨_, List.getLast?_eq_getLast_of_ne_nil htrne⟩
  have hnd : (sortTracker (get_node_count (sortByTime S) [])).Nodup := by
    rw [sortTracker]
    exact ((List.perm_insertionSort _ _).nodup_iff).mpr
      (get_node_count_nodup _ [] List.nodup_nil)
  have hmem : ∀ p ∈ (generateOffsetsLoop R (sortTracker (get_node_count (sortByTime S) []))
      (sortByTime S)).2,
      p.node_id ∈ sortTracker (get_node_count (sortByTime S) []) := by
    intro p hp
    have hpT : p ∈ sortByTime S :=
      (generateOffsetsLoop_sublist R _ (sortByTime S)).subset hp
    rw [sortTracker]
    exact (List.mem_insertionSort _).mpr (mem_get_node_count _ [] p hpT)
  have hct := correct_timestamps_eq
    (generateOffsetsLoop R (sortTracker (get_node_count (sortByTime S) [])) (sortByTime S)).1
    (sortTracker (get_node_count (sortByTime S) [])) R
    (generateOffsetsLoop R (sortTracker (get_node_count (sortByTime S) [])) (sortByTime S)).2
    hR ?hidx
  case hidx =>
    intro p hp hne
    have hlen := generateOffsetsLoop_length
      (sortTracker (get_node_count (sortByTime S) [])) R (sortByTime S) hR hnd
    have hlt := trackerIndex_lt_of_ne_last _ R p.node_id hR hnd (hmem p hp) hne
    omega
  have hev : eventual_consistency S =
      correct_timestamps
        (generateOffsetsLoop R (sortTracker (get_node_count (sortByTime S) []))
          (sortByTime S)).1
        (sortTracker (get_node_count (sortByTime S) []))
        (generateOffsetsLoop R (sortTracker (get_node_count (sortByTime S) []))
          (sortByTime S)).2 := by
    simp only [eventual_consistency, generate_offsets, hR]
  exact ⟨_, hev.trans hct⟩

theorem reconciliation_empty_store_oob_witness :
    ∃ out, eventual_consistency [⟨0, 1, 5, 0, 0, false⟩] = some out :=
  reconciliation_empty_store_oob.2 [⟨0, 1, 5, 0, 0, false⟩] (by decide)

/-- C4: in a timestamp-sorted store where one non-reference node n owns
three records, the second and third of which spatially match the two
distinct reference-node records that follow, reconciliation erases exactly
one reference record -- the first spatial match found scanning forward,
pairing the second record of n with the first reference record -- computes the
offset from that pair, and keeps the second reference record. -/
theorem reconciliation_single_duplicate_bound
    (d1 d2 d3 e1 e2 n R : Nat) (t1 t2 t3 u1 u2 a1 b1 a2 b2 a3 b3 : Int)
    (hnR : n < R)
    (hs1 : t1 ≤ t2) (hs2 : t2 ≤ t3) (hs3 : t3 ≤ u1) (hs4 : u1 ≤ u2)
    (hm1 : ¬(a2 = a1 ∧ b2 = b1)) (hm2 : ¬(a3 = a1 ∧ b3 = b1)) :
    offset_aux n R
        [⟨d1, n, t1, a1, b1, false⟩, ⟨d2, n, t2, a2, b2, false⟩,
          ⟨d3, n, t3, a3, b3, false⟩, ⟨e1, R, u1, a2, b2, false⟩,
          ⟨e2, R, u2, a3, b3, false⟩] =
      (u1 - t2,
        [⟨d1, n, t1, a1, b1, false⟩, ⟨d2, n, t2, a2, b2, false⟩,
          ⟨d3, n, t3, a3, b3, false⟩, ⟨e2, R, u2, a3, b3, false⟩]) ∧
    eventual_consistency
        [⟨d1, n, t1, a1, b1, false⟩, ⟨d2, n, t2, a2, b2, false⟩,
          ⟨d3, n, t3, a3, b3, false⟩, ⟨e1, R, u1, a2, b2, false⟩,
          ⟨e2, R, u2, a3, b3, false⟩] =
      some [⟨d1, n, t1 + (u1 - t2), a1, b1, false⟩, ⟨d2, n, t2 + (u1 - t2), a2, b2, false⟩,
        ⟨d3, n, t3 + (u1 - t2), a3, b3, false⟩, ⟨e2, R, u2, a3, b3, false⟩] := by
  have hne : n ≠ R := Nat.ne_of_lt hnR
  have hin1 : offsetAuxInner ⟨d1, n, t1, a1, b1, false⟩ R
      [⟨d2, n, t2, a2, b2, false⟩, ⟨d3, n, t3, a3, b3, false⟩,
        ⟨e1, R, u1, a2, b2, false⟩, ⟨e2, R, u2, a3, b3, false⟩] = none := by
    apply offsetAuxInner_none
    intro x hx hmatch
    simp only [List.mem_cons, List.not_mem_nil, or_false] at hx
    rcases hx with rfl | rfl | rfl | rfl
    · exact hne hmatch.2.2
    · exact hne hmatch.2.2
    · exact hm1 ⟨hmatch.1, hmatch.2.1⟩
    · exact hm2 ⟨hmatch.1, hmatch.2.1⟩
  have hin2 : offsetAuxInner ⟨d2, n, t2, a2, b2, false⟩ R
      [⟨d3, n, t3, a3, b3, false⟩, ⟨e1, R, u1, a2, b2, false⟩,
        ⟨e2, R, u2, a3, b3, false⟩] =
      some (u1 - t2, [⟨d3, n, t3, a3, b3, false⟩, ⟨e2, R, u2, a3, b3, false⟩]) := by
    have := offsetAuxInner_skip ⟨d2, n, t2, a2, b2, false⟩ ⟨e1, R, u1, a2, b2, false⟩ R
      ⟨rfl, rfl, rfl⟩ [⟨d3, n, t3, a3, b3, false⟩] [⟨e2, R, u2, a3, b3, false⟩]
      (by
        intro x hx hmatch
        simp only [List.mem_singleton] at hx
        subst hx
        exact hne hmatch.2.2)
    simpa using this
  have hoff : offset_aux n R
      [⟨d1, n, t1, a1, b1, false⟩, ⟨d2, n, t2, a2, b2, false⟩,
        ⟨d3, n, t3, a3, b3, false⟩, ⟨e1, R, u1, a2, b2, false⟩,
        ⟨e2, R, u2, a3, b3, false⟩] =
      (u1 - t2,
        [⟨d1, n, t1, a1, b1, false⟩, ⟨d2, n, t2, a2, b2, false⟩,
          ⟨d3, n, t3, a3, b3, false⟩, ⟨e2, R, u2, a3, b3, false⟩]) := by
    simp [offset_aux, hin1, hin2]
  refine ⟨hoff, ?_⟩
  have hsorted : sortByTime
      [⟨d1, n, t1, a1, b1, false⟩, ⟨d2, n, t2, a2, b2, false⟩,
        ⟨d3, n, t3, a3, b3, false⟩, ⟨e1, R, u1, a2, b2, false⟩,
        ⟨e2, R, u2, a3, b3, false⟩] =
      [⟨d1, n, t1, a1, b1, false⟩, ⟨d2, n, t2, a2, b2, false⟩,
        ⟨d3, n, t3, a3, b3, false⟩, ⟨e1, R, u1, a2, b2, false⟩,
        ⟨e2, R, u2, a3, b3, false⟩] := by
    rw [sortByTime]
    apply List.Sorted.insertionSort_eq
    simp [List.sorted_cons]
    omega
  have htracker : get_node_count
      [⟨d1, n, t1, a1, b1, false⟩, ⟨d2, n, t2, a2, b2, false⟩,
        ⟨d3, n, t3, a3, b3, false⟩, ⟨e1, R, u1, a2, b2, false⟩,
        ⟨e2, R, u2, a3, b3, false⟩] [] = [n, R] := by
    simp [get_node_count, hne, Ne.symm hne]
  have hsortTr : sortTracker [n, R] = [n, R] := by
    rw [sortTracker]
    apply List.Sorted.insertionSort_eq
    simp [List.sorted_cons]
    omega
  have hgen : generate_offsets [n, R]
      [⟨d1, n, t1, a1, b1, false⟩, ⟨d2, n, t2, a2, b2, false⟩,
        ⟨d3, n, t3, a3, b3, false⟩, ⟨e1, R, u1, a2, b2, false⟩,
        ⟨e2, R, u2, a3, b3, false⟩] =
      some ([u1 - t2],
        [⟨d1, n, t1, a1, b1, false⟩, ⟨d2, n, t2, a2, b2, false⟩,
          ⟨d3, n, t3, a3, b3, false⟩, ⟨e2, R, u2, a3, b3, false⟩]) := by
    simp [generate_offsets, generateOffsetsLoop, hne, hoff]
  have hcorr : correct_timestamps [u1 - t2] [n, R]
      [⟨d1, n, t1, a1, b1, false⟩, ⟨d2, n, t2, a2, b2, false⟩,
        ⟨d3, n, t3, a3, b3, false⟩, ⟨e2, R, u2, a3, b3, false⟩] =
      some [⟨d1, n, t1 + (u1 - t2), a1, b1, false⟩, ⟨d2, n, t2 + (u1 - t2), a2, b2, false⟩,
        ⟨d3, n, t3 + (u1 - t2), a3, b3, false⟩, ⟨e2, R, u2, a3, b3, false⟩] := by
    simp [correct_timestamps, List.mapM, List.mapM.loop, correctOne, trackerIndex, hne]
  simp only [eventual_consistency]
  rw [hsorted, htracker, hsortTr, hgen]
  exact hcorr

theorem reconciliation_single_duplicate_bound_witness :
    offset_aux 1 2
        [⟨10, 1, 10, 0, 0, false⟩, ⟨11, 1, 20, 5, 5, false⟩, ⟨12, 1, 30, 7, 7, false⟩,
          ⟨13, 2, 40, 5, 5, false⟩, ⟨14, 2, 50, 7, 7, false⟩] =
      (20, [⟨10, 1, 10, 0, 0, false⟩, ⟨11, 1, 20, 5, 5, false⟩,
        ⟨12, 1, 30, 7, 7, false⟩, ⟨14, 2, 50, 7, 7, false⟩]) ∧
    eventual_consistency
        [⟨10, 1, 10, 0, 0, false⟩, ⟨11, 1, 20, 5, 5, false⟩, ⟨12, 1, 30, 7, 7, false⟩,
          ⟨13, 2, 40, 5, 5, false⟩, ⟨14, 2, 50, 7, 7, false⟩] =
      some [⟨10, 1, 30, 0, 0, false⟩, ⟨11, 1, 40, 5, 5, false⟩,
        ⟨12, 1, 50, 7, 7, false⟩, ⟨14, 2, 50, 7, 7, false⟩] := by
  have h := reconciliation_single_duplicate_bound 10 11 12 13 14 1 2
    10 20 30 40 50 0 0 5 5 7 7 (by decide) (by decide) (by decide) (by decide)
    (by decide) (by decide) (by decide)
  constructor
  · rw [h.1]
    decide
  · rw [h.2]
    decide
